import Mathlib

/-!
Verification development for the Wendler 5-3-1 training application.

The first half embeds, function by function, the decision-bearing logic of
the frontend screen code (CyclesScreen.tsx and the onboarding screen):
workout-completion detection in saveWorkout, the terminal-status check
isAllWorkoutsCompleted, the next-cycle gate in renderCycle, the start-button
gate in renderWorkoutSummary, and the schedule validation validateStep2.
The second half models the core cycle engine (percentage schedule, weight
rounding, workout and cycle generation, the status state machine and the
progression rule) which lives in the backend service and is described by
the design document; each such definition carries a doc comment starting
with the words Modelled from the spec.
-/

/-- The two kinds of prescribed set carried by the frontend SetData field
named type (values warmup and working). -/
inductive SetKind where
  | warmup
  | working
deriving DecidableEq

/-- Embeds the frontend interface SetData of CyclesScreen.tsx: percentage,
reps (a string or a number in the source, hence a sum), weight, the
optional recorded completed_reps and actual_weight, the optional set kind
and the optional notes label. -/
structure SetData where
  percentage : ℚ
  reps : String ⊕ ℚ
  weight : ℚ
  completed_reps : Option ℚ
  actual_weight : Option ℚ
  kind : Option SetKind
  notes : Option String
deriving DecidableEq

/-- Embeds the frontend interface WorkoutData of CyclesScreen.tsx. The id
and status fields are optional in the source; sets is the record mapping a
movement name to its ordered set list, embedded as an association list. -/
structure WorkoutData where
  id : Option ℕ
  week : ℕ
  day : ℕ
  movements : List String
  sets : List (String × List SetData)
  status : Option String
  completed : Option Bool
deriving DecidableEq

/-- Embeds the frontend interface CycleData of CyclesScreen.tsx. The
workouts field is an Option because the guards in the source treat a
missing or null workouts array differently from a present one. -/
structure CycleData where
  id : ℕ
  cycle_number : ℕ
  start_date : String
  is_active : Bool
  training_maxes : List (String × ℚ)
  workouts : Option (List WorkoutData)

/-- Embeds getWorkoutStatus of CyclesScreen.tsx: the status string of a
workout, defaulting to not-started; the source expression
workout.status with a fallback also sends the empty string (falsy in
JavaScript) to the default. -/
def getWorkoutStatus (w : WorkoutData) : String :=
  match w.status with
  | none => "not-started"
  | some s => if s = "" then "not-started" else s

/-- Embeds the per-movement completion test inside saveWorkout of
CyclesScreen.tsx: an empty set list is incomplete, otherwise only the
final set is inspected and it must carry a present completed_reps that is
strictly positive. -/
def isMovementComplete (sets : List SetData) : Bool :=
  match sets.getLast? with
  | none => false
  | some finalSet =>
    match finalSet.completed_reps with
    | none => false
    | some r => decide (0 < r)

/-- Embeds the allMovementsCompleted computation of saveWorkout in
CyclesScreen.tsx: every assigned movement must individually pass
isMovementComplete on its recorded set list, a missing entry counting as
the empty list. -/
def allMovementsCompleted (movements : List String)
    (workoutChanges : List (String × List SetData)) : Bool :=
  movements.all fun movement =>
    isMovementComplete ((workoutChanges.lookup movement).getD [])

/-- Embeds isAllWorkoutsCompleted of CyclesScreen.tsx: false when the
workouts field is missing, otherwise every workout must have status
completed, dnf or skipped. -/
def isAllWorkoutsCompleted (cycle : CycleData) : Bool :=
  match cycle.workouts with
  | none => false
  | some ws => ws.all fun w =>
      getWorkoutStatus w == "completed" || getWorkoutStatus w == "dnf"
        || getWorkoutStatus w == "skipped"

/-- Embeds hasInProgressWorkout of CyclesScreen.tsx. -/
def hasInProgressWorkout (cycle : CycleData) : Bool :=
  match cycle.workouts with
  | none => false
  | some ws => ws.any fun w => getWorkoutStatus w == "in-progress"

/-- The total preorder used by the sort in getFirstNotStartedWorkout of
CyclesScreen.tsx: by week, then by day. -/
def workoutLE (a b : WorkoutData) : Prop :=
  a.week < b.week ∨ (a.week = b.week ∧ a.day ≤ b.day)

instance workoutLE.instDecidable : DecidableRel workoutLE := fun a b => by
  unfold workoutLE
  exact inferInstance

instance workoutLE.instIsTotal : IsTotal WorkoutData workoutLE :=
  ⟨by intro a b; unfold workoutLE; omega⟩

instance workoutLE.instIsTrans : IsTrans WorkoutData workoutLE :=
  ⟨by intro a b c; unfold workoutLE; omega⟩

/-- Embeds getFirstNotStartedWorkout of CyclesScreen.tsx: stable-sort the
workouts by week then day and return the first whose status is
not-started. -/
def getFirstNotStartedWorkout (cycle : CycleData) : Option WorkoutData :=
  match cycle.workouts with
  | none => none
  | some ws =>
    (List.insertionSort workoutLE ws).find? fun w =>
      getWorkoutStatus w == "not-started"

/-- Embeds the shouldShowStartButton condition of renderWorkoutSummary in
CyclesScreen.tsx: the workout is not-started, the optional id of the first
not-started workout equals the optional id of this workout (the source
compares the two possibly-undefined ids with strict equality, so two
absent ids compare equal), and no workout of the cycle is in progress. -/
def shouldShowStartButton (workout : WorkoutData) (cycle : CycleData) : Bool :=
  (getWorkoutStatus workout == "not-started")
    && (((getFirstNotStartedWorkout cycle).bind WorkoutData.id) == workout.id)
    && !(hasInProgressWorkout cycle)

/-- Embeds the guard of the next-cycle section in renderCycle of
CyclesScreen.tsx: the button is rendered exactly when the cycle is active
and isAllWorkoutsCompleted holds. -/
def showNextCycleButton (cycle : CycleData) : Bool :=
  cycle.is_active && isAllWorkoutsCompleted cycle

/-- Embeds validateStep2 of the onboarding screen: each day must list
exactly 2 movements, and an assignment placing squat and deadlift on the
same day is blocked behind a warning dialog (the function returns false
for it). No other condition is checked. -/
def validateStep2 (day1_movements day2_movements : List String) : Bool :=
  if day1_movements.length ≠ 2 then false
  else if day2_movements.length ≠ 2 then false
  else
    let day1HasSquatAndDeadlift :=
      day1_movements.contains "squat" && day1_movements.contains "deadlift"
    let day2HasSquatAndDeadlift :=
      day2_movements.contains "squat" && day2_movements.contains "deadlift"
    if day1HasSquatAndDeadlift || day2HasSquatAndDeadlift then false
    else true

/-- Modelled from the spec: the schedule-assignment validity condition the
design document attaches to createCycle, written from its words for
comparison with the validateStep2 code above: each day has exactly 2
distinct movements and the union of the two days is exactly the
4-movement enumeration. -/
def specValidSplit (day1_movements day2_movements : List String) : Bool :=
  let both := day1_movements ++ day2_movements
  day1_movements.length == 2 && day2_movements.length == 2
    && decide both.Nodup
    && (["squat", "bench", "deadlift", "overhead_press"].all fun m =>
          both.contains m)
    && (both.all fun m =>
          ["squat", "bench", "deadlift", "overhead_press"].contains m)

/-- Modelled from the spec: the fixed closed Movement enumeration of the
data model section. -/
inductive Movement where
  | squat
  | bench
  | deadlift
  | overhead_press
deriving DecidableEq, Fintype

/-- Modelled from the spec: the WorkoutStatus enumeration. -/
inductive WorkoutStatus where
  | notStarted
  | inProgress
  | completed
  | dnf
  | skipped
deriving DecidableEq, Fintype

/-- Modelled from the spec: the error kinds of the error handling design
section; all core operations report failure through this type. -/
inductive SpecError where
  | invalidWeek
  | invalidWeight
  | unknownMovement
  | missingTrainingMax
  | invalidScheduleAssignment
  | invalidTransition
deriving DecidableEq

deriving instance DecidableEq for Except

/-- A status is terminal when it is completed, dnf or skipped. -/
def isTerminalStatus : WorkoutStatus → Bool
  | .completed => true
  | .dnf => true
  | .skipped => true
  | _ => false

/-- Modelled from the spec: the edges of the workout status graph of the
state machine section: not-started to in-progress, in-progress to any
terminal state, and any terminal state back to not-started as the manual
reset. -/
def allowedTransition : WorkoutStatus → WorkoutStatus → Bool
  | .notStarted, .inProgress => true
  | .inProgress, .completed => true
  | .inProgress, .dnf => true
  | .inProgress, .skipped => true
  | .completed, .notStarted => true
  | .dnf, .notStarted => true
  | .skipped, .notStarted => true
  | _, _ => false

/-- Modelled from the spec: the transition function of the workout status
state machine, absent from the frontend sources (it lives in the backend
service); a requested state unreachable from the current one fails with
InvalidTransition. -/
def transition (current requested : WorkoutStatus) :
    Except SpecError WorkoutStatus :=
  if allowedTransition current requested then .ok requested
  else .error .invalidTransition

/-- The status transitions the CyclesScreen.tsx interface can request:
the start button of renderWorkoutSummary sends not-started to in-progress,
the in-progress picker of renderWorkoutDetails offers dnf and skipped,
the terminal-state picker offers the reset to not-started, and
openWorkoutEditor opens the editor for a workout of any status while
saveWorkout then invokes the complete operation unconditionally, so a
completed request is reachable from every current status. -/
def uiOffers : WorkoutStatus → WorkoutStatus → Bool
  | .notStarted, .inProgress => true
  | .inProgress, .dnf => true
  | .inProgress, .skipped => true
  | .completed, .notStarted => true
  | .dnf, .notStarted => true
  | .skipped, .notStarted => true
  | _, .completed => true
  | _, _ => false

/-- Modelled from the spec: the AMRAP-or-fixed target rep count of a
SetPrescription, a distinct variant as the design notes require. -/
inductive TargetReps where
  | fixed (n : ℕ)
  | amrap
deriving DecidableEq

/-- Modelled from the spec: a row of the percentage schedule table:
percentage of training max, target reps, and warm-up or working kind. -/
structure SetTemplate where
  percentage : ℚ
  targetReps : TargetReps
  kind : SetKind
deriving DecidableEq

/-- Modelled from the spec: the warm-up set templates prepended to every
workout regardless of week (lower percentages, fixed rep counts). -/
def warmupTemplates : List SetTemplate :=
  [⟨40 / 100, .fixed 5, .warmup⟩, ⟨50 / 100, .fixed 5, .warmup⟩,
   ⟨60 / 100, .fixed 3, .warmup⟩]

/-- Modelled from the spec: the working-set rows of the percentage
schedule for weeks 1 to 4 of the standard 5-3-1 cadence; the final working
set of weeks 1 to 3 is the AMRAP set, week 4 is the deload with no AMRAP
set. -/
def workingTemplates : ℕ → List SetTemplate
  | 1 => [⟨65 / 100, .fixed 5, .working⟩, ⟨75 / 100, .fixed 5, .working⟩,
          ⟨85 / 100, .amrap, .working⟩]
  | 2 => [⟨70 / 100, .fixed 3, .working⟩, ⟨80 / 100, .fixed 3, .working⟩,
          ⟨90 / 100, .amrap, .working⟩]
  | 3 => [⟨75 / 100, .fixed 5, .working⟩, ⟨85 / 100, .fixed 3, .working⟩,
          ⟨95 / 100, .amrap, .working⟩]
  | 4 => [⟨40 / 100, .fixed 5, .working⟩, ⟨50 / 100, .fixed 5, .working⟩,
          ⟨60 / 100, .fixed 5, .working⟩]
  | _ => []

/-- Modelled from the spec: the generator configuration structure of the
design notes: the rounding increment and whether warm-up templates are
included. -/
structure GenConfig where
  increment : ℚ
  includeWarmups : Bool

/-- Modelled from the spec: the percentage schedule contract: the ordered
list of set templates of a week, warm-ups first; a week outside 1 to 4
fails with InvalidWeek. -/
def schedule (cfg : GenConfig) (week : ℕ) : Except SpecError (List SetTemplate) :=
  if week < 1 || 4 < week then .error .invalidWeek
  else .ok ((if cfg.includeWarmups then warmupTemplates else [])
      ++ workingTemplates week)

/-- The multiple of the increment nearest to the raw weight. -/
def nearestMultiple (increment raw : ℚ) : ℚ :=
  increment * round (raw / increment)

/-- Modelled from the spec: the weight rounding policy: round the raw
weight to the nearest loadable increment; zero or negative input fails
with InvalidWeight. -/
def roundToLoadable (rawWeight increment : ℚ) : Except SpecError ℚ :=
  if rawWeight ≤ 0 then .error .invalidWeight
  else .ok (nearestMultiple increment rawWeight)

/-- Modelled from the spec: the unit of a TrainingMaxSet. -/
inductive WeightUnit where
  | pounds
  | kilograms
deriving DecidableEq

/-- Modelled from the spec: a TrainingMaxSet: exactly one weight per
movement, plus the unit. -/
structure TrainingMaxSet where
  squat : ℚ
  bench : ℚ
  deadlift : ℚ
  overhead_press : ℚ
  unit : WeightUnit
deriving DecidableEq

/-- The weight a TrainingMaxSet assigns to a movement. -/
def TrainingMaxSet.get (tms : TrainingMaxSet) : Movement → ℚ
  | .squat => tms.squat
  | .bench => tms.bench
  | .deadlift => tms.deadlift
  | .overhead_press => tms.overhead_press

/-- Modelled from the spec: a generated SetPrescription: percentage,
target reps, kind and the computed rounded weight. -/
structure SetPrescription where
  percentage : ℚ
  targetReps : TargetReps
  kind : SetKind
  computedWeight : ℚ
deriving DecidableEq

/-- Error-propagating elementwise map, the plumbing of the generator. -/
def mapExcept (f : α → Except ε β) : List α → Except ε (List β)
  | [] => .ok []
  | a :: as => do
    let b ← f a
    let bs ← mapExcept f as
    return b :: bs

/-- The prescription a template yields once its weight is rounded. -/
def prescribe (increment tm : ℚ) (t : SetTemplate) : SetPrescription :=
  ⟨t.percentage, t.targetReps, t.kind,
   nearestMultiple increment (tm * t.percentage)⟩

/-- One generated set: raw weight is training max times percentage,
rounded through the rounding policy. -/
def mkPrescription (increment tm : ℚ) (t : SetTemplate) :
    Except SpecError SetPrescription :=
  (roundToLoadable (tm * t.percentage) increment).map fun w =>
    ⟨t.percentage, t.targetReps, t.kind, w⟩

/-- Modelled from the spec: the workout generator restricted to one
movement: pull the week templates from the schedule and compute and round
each weight. -/
def generateMovement (cfg : GenConfig) (tm : ℚ) (week : ℕ) :
    Except SpecError (List SetPrescription) := do
  let templates ← schedule cfg week
  mapExcept (mkPrescription cfg.increment tm) templates

/-- Modelled from the spec: the workout generator: the ordered set list of
every assigned movement for the week. -/
def generate (cfg : GenConfig) (tms : TrainingMaxSet)
    (movements : List Movement) (week : ℕ) :
    Except SpecError (List (Movement × List SetPrescription)) :=
  mapExcept (fun m =>
    (generateMovement cfg (tms.get m) week).map fun sets => (m, sets)) movements

/-- Modelled from the spec: a WorkoutPlan produced by the cycle
generator. -/
structure WorkoutPlan where
  week : ℕ
  day : ℕ
  movements : List Movement
  sets : List (Movement × List SetPrescription)
  status : WorkoutStatus

/-- Modelled from the spec: the createCycle validity condition on the two
day assignments: each day exactly 2 distinct movements and the union
exactly the 4-movement enumeration. -/
def isValidSplit (day1 day2 : List Movement) : Bool :=
  day1.length == 2 && day2.length == 2
    && decide (day1 ++ day2).Nodup
    && decide (∀ m : Movement, m ∈ day1 ++ day2)

/-- Modelled from the spec: a Cycle record; dates are day numbers so the
week ranges of the design are plain arithmetic. -/
structure CyclePlan where
  cycleNumber : ℕ
  startDate : ℕ
  trainingMaxes : TrainingMaxSet
  isActive : Bool
  workouts : List WorkoutPlan
  weekRanges : List (ℕ × ℕ × ℕ)

/-- Modelled from the spec: the cycle generator: validate the day split
(failing with InvalidScheduleAssignment), then for each week 1 to 4 and
each day 1 and 2 invoke the workout generator, every workout starting
not-started; attach the week date ranges and mark the cycle active. -/
def createCycle (cfg : GenConfig) (tms : TrainingMaxSet)
    (day1 day2 : List Movement) (startDate cycleNumber : ℕ) :
    Except SpecError CyclePlan :=
  if !isValidSplit day1 day2 then .error .invalidScheduleAssignment
  else do
    let mk := fun (week day : ℕ) (ms : List Movement) =>
      (generate cfg tms ms week).map fun sets =>
        WorkoutPlan.mk week day ms sets .notStarted
    let w11 ← mk 1 1 day1
    let w12 ← mk 1 2 day2
    let w21 ← mk 2 1 day1
    let w22 ← mk 2 2 day2
    let w31 ← mk 3 1 day1
    let w32 ← mk 3 2 day2
    let w41 ← mk 4 1 day1
    let w42 ← mk 4 2 day2
    return ⟨cycleNumber, startDate, tms, true,
      [w11, w12, w21, w22, w31, w32, w41, w42],
      (List.range 4).map fun i =>
        (i + 1, startDate + i * 7, startDate + i * 7 + 6)⟩

/-- Modelled from the spec: the progression configuration: the upper-body
and lower-body increments. -/
structure ProgressionConfig where
  upperIncrement : ℚ
  lowerIncrement : ℚ

/-- Modelled from the spec: the default progression increments, 5 for the
upper-body movements and 10 for the lower-body movements. -/
def defaultProgressionConfig : ProgressionConfig := ⟨5, 10⟩

/-- Modelled from the spec: the progression engine: bench and
overhead_press gain the upper-body increment, squat and deadlift the
lower-body increment, nothing else changes. -/
def nextTrainingMaxes (cfg : ProgressionConfig) (current : TrainingMaxSet) :
    TrainingMaxSet :=
  ⟨current.squat + cfg.lowerIncrement,
   current.bench + cfg.upperIncrement,
   current.deadlift + cfg.lowerIncrement,
   current.overhead_press + cfg.upperIncrement,
   current.unit⟩

/-- A concrete recorded set for the completion examples: the bench final
set with a given recorded rep count. -/
def benchFinalSet (r : ℚ) : SetData :=
  ⟨85 / 100, Sum.inr 5, 185, some r, none, some SetKind.working, none⟩

/-- A finished demo cycle: one completed and one dnf workout. -/
def terminalDemoWorkout : WorkoutData :=
  ⟨some 1, 1, 1, ["bench", "deadlift"], [], some "completed", some true⟩

/-- A second demo workout with the dnf terminal status. -/
def dnfDemoWorkout : WorkoutData :=
  ⟨some 2, 1, 2, ["squat", "overhead_press"], [], some "dnf", none⟩

/-- An active demo cycle whose two workouts are both terminal. -/
def finishedDemoCycle : CycleData :=
  ⟨7, 2, "2025-01-06", true, [("squat", 300)],
   some [terminalDemoWorkout, dnfDemoWorkout]⟩

/-- A demo cycle whose workouts list is present but empty. -/
def emptyWorkoutsCycle : CycleData :=
  ⟨3, 3, "2025-02-03", true, [], some []⟩

/-- A demo cycle whose workouts field is missing. -/
def missingWorkoutsCycle : CycleData :=
  ⟨4, 4, "2025-03-03", true, [], none⟩

/-- The demo generator configuration: increment 5, warm-ups included. -/
def demoGenConfig : GenConfig := ⟨5, true⟩

/-- The demo training maxes of the progression example. -/
def demoTms : TrainingMaxSet := ⟨300, 200, 350, 140, .pounds⟩

/-- Two not-started demo workouts both lacking an id, in different
weeks, for the start-button counterexample. -/
def idlessWorkoutA : WorkoutData :=
  ⟨none, 1, 1, ["squat", "overhead_press"], [], some "not-started", none⟩

/-- The second id-less not-started demo workout, one week later. -/
def idlessWorkoutB : WorkoutData :=
  ⟨none, 2, 1, ["squat", "overhead_press"], [], some "not-started", none⟩

/-- An active demo cycle holding the two id-less workouts. -/
def idlessCycle : CycleData :=
  ⟨1, 1, "2025-01-01", true, [], some [idlessWorkoutA, idlessWorkoutB]⟩

/-- A not-started demo workout carrying id 11, week 1 day 1. -/
def demoStartWorkout1 : WorkoutData :=
  ⟨some 11, 1, 1, ["squat", "overhead_press"], [], some "not-started", none⟩

/-- A not-started demo workout carrying id 12, week 1 day 2. -/
def demoStartWorkout2 : WorkoutData :=
  ⟨some 12, 1, 2, ["bench", "deadlift"], [], some "not-started", none⟩

/-- An active demo cycle holding the two id-carrying workouts. -/
def demoStartCycle : CycleData :=
  ⟨2, 1, "2025-01-01", true, [], some [demoStartWorkout1, demoStartWorkout2]⟩

/-- The WorkoutPlan a successful createCycle builds for one day slot:
the week, the day, the assigned movements and their generated set
lists, starting not-started. -/
def dayPlan (cfg : GenConfig) (tms : TrainingMaxSet) (week day : ℕ)
    (ms : List Movement) : WorkoutPlan :=
  ⟨week, day, ms,
   ms.map fun m =>
     (m, ((if cfg.includeWarmups then warmupTemplates else [])
        ++ workingTemplates week).map (prescribe cfg.increment (tms.get m))),
   .notStarted⟩

/-- Claim C1: a movement counts as complete exactly when the final set of
its ordered set list has a present completedReps strictly greater than 0,
earlier sets never mattering; the workout counts as complete exactly when
every assigned movement is individually complete; recorded reps
5, 5, 8 make a movement complete and 5, 5, 0 do not. -/
theorem C1_completion_predicate :
    (∀ sets : List SetData, isMovementComplete sets = true ↔
        ∃ finalSet, sets.getLast? = some finalSet ∧
          ∃ r, finalSet.completed_reps = some r ∧ 0 < r)
  ∧ (∀ (movements : List String)
        (workoutChanges : List (String × List SetData)),
        allMovementsCompleted movements workoutChanges = true ↔
          ∀ m ∈ movements,
            isMovementComplete ((workoutChanges.lookup m).getD []) = true)
  ∧ isMovementComplete [benchFinalSet 5, benchFinalSet 5, benchFinalSet 8]
      = true
  ∧ isMovementComplete [benchFinalSet 5, benchFinalSet 5, benchFinalSet 0]
      = false := by
  refine ⟨?_, ?_, by decide, by decide⟩
  · intro sets
    rcases h : sets.getLast? with _ | finalSet
    · simp [isMovementComplete, h]
    · rcases hr : finalSet.completed_reps with _ | r
      · simp [isMovementComplete, h, hr]
      · simp [isMovementComplete, h, hr]
  · intro movements workoutChanges
    simp [allMovementsCompleted, List.all_eq_true]

theorem C1_completion_predicate_witness :
    isMovementComplete [benchFinalSet 5, benchFinalSet 5, benchFinalSet 8]
      = true :=
  C1_completion_predicate.2.2.1

/-- Claim C2: the only transitions that succeed are not-started to
in-progress, in-progress to completed, dnf or skipped, and any terminal
state back to not-started as the manual reset; every other requested
transition fails with InvalidTransition, so in-progress cannot be
re-entered from a terminal state without first resetting; in particular
every transition the CyclesScreen interface can request that lies outside
this graph (such as the completed request saveWorkout fires for a
workout that is not in progress) fails with InvalidTransition. -/
theorem C2_status_transitions :
    (∀ c r : WorkoutStatus,
        transition c r = .ok r ↔
          ((c = .notStarted ∧ r = .inProgress)
            ∨ (c = .inProgress
                ∧ (r = .completed ∨ r = .dnf ∨ r = .skipped))
            ∨ (isTerminalStatus c = true ∧ r = .notStarted)))
  ∧ (∀ c r : WorkoutStatus,
        transition c r = .ok r
          ∨ transition c r = .error .invalidTransition)
  ∧ transition .notStarted .inProgress = .ok .inProgress
  ∧ transition .completed .inProgress = .error .invalidTransition
  ∧ transition .completed .notStarted = .ok .notStarted
  ∧ (∀ c r : WorkoutStatus, uiOffers c r = true →
        allowedTransition c r = false →
        transition c r = .error .invalidTransition) := by
  refine ⟨by decide, by decide, by decide, by decide, by decide, by decide⟩

theorem C2_status_transitions_witness :
    transition .notStarted .completed = .error .invalidTransition :=
  C2_status_transitions.2.2.2.2.2 .notStarted .completed (by decide)
    (by decide)

/-- Claim C3: the next-cycle action is offered exactly when the cycle is
active, its workouts list is present, and every workout has a terminal
status (completed, dnf or skipped); a cycle containing a not-started or
in-progress workout is never offered the action. -/
theorem C3_next_cycle_gate :
    ∀ cycle : CycleData,
      showNextCycleButton cycle = true ↔
        (cycle.is_active = true ∧
          ∃ ws, cycle.workouts = some ws ∧
            ∀ w ∈ ws,
              getWorkoutStatus w = "completed"
                ∨ getWorkoutStatus w = "dnf"
                ∨ getWorkoutStatus w = "skipped") := by
  intro cycle
  rcases h : cycle.workouts with _ | ws
  · simp [showNextCycleButton, isAllWorkoutsCompleted, h]
  · simp [showNextCycleButton, isAllWorkoutsCompleted, h,
      List.all_eq_true]
    intro
    constructor
    · intro hall w hw
      have := hall w hw
      tauto
    · intro hall w hw
      have := hall w hw
      tauto

theorem C3_next_cycle_gate_witness :
    showNextCycleButton finishedDemoCycle = true :=
  (C3_next_cycle_gate finishedDemoCycle).mpr
    ⟨rfl, [terminalDemoWorkout, dnfDemoWorkout], rfl, by decide⟩

/-- Claim C4: nextTrainingMaxes adds the configured upper-body increment
to bench and overhead_press and the configured lower-body increment to
squat and deadlift, changing nothing else; the defaults are 5 and 10, and
squat 300, bench 200, deadlift 350, overhead_press 140 map to 310, 205,
360, 145. -/
theorem C4_progression_rule :
    (∀ (cfg : ProgressionConfig) (current : TrainingMaxSet),
        nextTrainingMaxes cfg current =
          ⟨current.squat + cfg.lowerIncrement,
           current.bench + cfg.upperIncrement,
           current.deadlift + cfg.lowerIncrement,
           current.overhead_press + cfg.upperIncrement,
           current.unit⟩)
  ∧ defaultProgressionConfig.upperIncrement = 5
  ∧ defaultProgressionConfig.lowerIncrement = 10
  ∧ nextTrainingMaxes defaultProgressionConfig ⟨300, 200, 350, 140, .pounds⟩
      = ⟨310, 205, 360, 145, .pounds⟩ := by
  refine ⟨fun cfg current => rfl, rfl, rfl, ?_⟩
  simp only [nextTrainingMaxes, defaultProgressionConfig,
    TrainingMaxSet.mk.injEq]
  norm_num

/-- Claim C5 counterexample: the schedule validation accepts day1 squat
and bench with day2 squat and overhead_press, an assignment that
duplicates squat across the days and omits deadlift, which the claim says
must be rejected. -/
theorem C5_schedule_validation_counterexample :
    validateStep2 ["squat", "bench"] ["squat", "overhead_press"] = true
    ∧ specValidSplit ["squat", "bench"] ["squat", "overhead_press"]
        = false := by
  refine ⟨by decide, by decide⟩

/-- Claim C5 (amended): validateStep2 accepts a schedule assignment
exactly when each day lists exactly 2 movements and no single day
contains both squat and deadlift; it enforces neither distinctness across
the two days nor coverage of the full 4-movement enumeration. -/
theorem C5_amended_validation :
    ∀ day1 day2 : List String,
      validateStep2 day1 day2 = true ↔
        (day1.length = 2 ∧ day2.length = 2
          ∧ ¬("squat" ∈ day1 ∧ "deadlift" ∈ day1)
          ∧ ¬("squat" ∈ day2 ∧ "deadlift" ∈ day2)) := by
  intro day1 day2
  simp only [validateStep2]
  split_ifs with h1 h2 h3
  · simp_all
  · simp_all
  · simp only [Bool.or_eq_true, Bool.and_eq_true, List.elem_iff] at h3
    simp_all
    tauto
  · simp only [Bool.or_eq_true, Bool.and_eq_true, List.elem_iff,
      not_or, not_and] at h3
    simp_all
    try tauto

theorem C5_amended_validation_witness :
    validateStep2 ["squat", "overhead_press"] ["bench", "deadlift"]
      = true :=
  (C5_amended_validation ["squat", "overhead_press"]
    ["bench", "deadlift"]).mpr (by decide)

/-- Claim C10: the all-workouts-terminal check is vacuously true for a
present but empty workouts list, so an active cycle with zero workouts is
offered the next-cycle action, while a cycle with a missing workouts
field is not. -/
theorem C10_empty_workouts :
    (∀ cycle : CycleData, cycle.workouts = some [] →
        isAllWorkoutsCompleted cycle = true)
  ∧ (∀ cycle : CycleData, cycle.workouts = some [] →
        cycle.is_active = true → showNextCycleButton cycle = true)
  ∧ (∀ cycle : CycleData, cycle.workouts = none →
        isAllWorkoutsCompleted cycle = false
          ∧ showNextCycleButton cycle = false) := by
  refine ⟨?_, ?_, ?_⟩
  · intro cycle h
    simp [isAllWorkoutsCompleted, h]
  · intro cycle h ha
    simp [showNextCycleButton, isAllWorkoutsCompleted, h, ha]
  · intro cycle h
    simp [showNextCycleButton, isAllWorkoutsCompleted, h]

theorem C10_empty_workouts_witness :
    isAllWorkoutsCompleted emptyWorkoutsCycle = true
    ∧ showNextCycleButton emptyWorkoutsCycle = true
    ∧ isAllWorkoutsCompleted missingWorkoutsCycle = false :=
  ⟨C10_empty_workouts.1 emptyWorkoutsCycle rfl,
   C10_empty_workouts.2.1 emptyWorkoutsCycle rfl rfl,
   (C10_empty_workouts.2.2 missingWorkoutsCycle rfl).1⟩

theorem exOkBind {ε α β : Type} (x : α) (k : α → Except ε β) :
    ((Except.ok x : Except ε α) >>= k) = k x := rfl

theorem exOkMap {ε α β : Type} (x : α) (f : α → β) :
    (Except.ok x : Except ε α).map f = .ok (f x) := rfl

theorem exPure {ε α : Type} (x : α) :
    (pure x : Except ε α) = .ok x := rfl

theorem mapExcept_eq_ok {α β ε : Type} {f : α → Except ε β} {g : α → β} :
    ∀ l : List α, (∀ a ∈ l, f a = .ok (g a)) →
      mapExcept f l = .ok (l.map g) := by
  intro l
  induction l with
  | nil => intro _; rfl
  | cons a as ih =>
    intro h
    have ha := h a (by simp)
    have has := ih fun x hx => h x (by simp [hx])
    simp only [mapExcept, List.map, ha, has, exOkBind, exPure]

theorem roundToLoadable_of_pos {raw inc : ℚ} (h : 0 < raw) :
    roundToLoadable raw inc = .ok (nearestMultiple inc raw) := by
  rw [roundToLoadable, if_neg (not_le.mpr h)]

theorem mkPrescription_of_pos {inc tm : ℚ} (htm : 0 < tm) {t : SetTemplate}
    (ht : 0 < t.percentage) :
    mkPrescription inc tm t = .ok (prescribe inc tm t) := by
  rw [mkPrescription, roundToLoadable_of_pos (mul_pos htm ht)]
  rfl

theorem schedule_eq (cfg : GenConfig) {week : ℕ} (hw : week ∈ [1, 2, 3, 4]) :
    schedule cfg week =
      .ok ((if cfg.includeWarmups then warmupTemplates else [])
        ++ workingTemplates week) := by
  fin_cases hw <;> rfl

theorem schedule_invalid (cfg : GenConfig) {week : ℕ}
    (h : week ∉ [1, 2, 3, 4]) :
    schedule cfg week = .error .invalidWeek := by
  have hlt : week < 1 ∨ 4 < week := by
    simp only [List.mem_cons, List.not_mem_nil, or_false] at h
    omega
  rw [schedule, if_pos]
  rcases hlt with h1 | h1 <;> simp [h1]

theorem templates_pos (cfg : GenConfig) {week : ℕ} (hw : week ∈ [1, 2, 3, 4]) :
    ∀ t ∈ (if cfg.includeWarmups then warmupTemplates else [])
        ++ workingTemplates week, 0 < t.percentage := by
  intro t ht
  rw [List.mem_append] at ht
  rcases ht with ht | ht
  · rcases hic : cfg.includeWarmups with _ | _
    · rw [hic] at ht
      simp at ht
    · rw [hic] at ht
      fin_cases ht <;> norm_num [warmupTemplates]
  · fin_cases hw <;> fin_cases ht <;> norm_num [workingTemplates]

theorem generateMovement_eq (cfg : GenConfig) {tm : ℚ} (htm : 0 < tm)
    {week : ℕ} (hw : week ∈ [1, 2, 3, 4]) :
    generateMovement cfg tm week =
      .ok (((if cfg.includeWarmups then warmupTemplates else [])
          ++ workingTemplates week).map (prescribe cfg.increment tm)) := by
  rw [generateMovement, schedule_eq cfg hw]
  exact mapExcept_eq_ok _ fun t ht =>
    mkPrescription_of_pos htm (templates_pos cfg hw t ht)

theorem generate_eq (cfg : GenConfig) {tms : TrainingMaxSet}
    (h : ∀ m : Movement, 0 < tms.get m) {week : ℕ}
    (hw : week ∈ [1, 2, 3, 4]) (ms : List Movement) :
    generate cfg tms ms week =
      .ok (ms.map fun m =>
        (m, ((if cfg.includeWarmups then warmupTemplates else [])
            ++ workingTemplates week).map
          (prescribe cfg.increment (tms.get m)))) := by
  apply mapExcept_eq_ok
  intro m _
  rw [generateMovement_eq cfg (h m) hw]
  rfl

theorem validSplit_mem {day1 day2 : List Movement}
    (h : isValidSplit day1 day2 = true) (m : Movement) :
    (m ∈ day1 ∧ m ∉ day2) ∨ (m ∉ day1 ∧ m ∈ day2) := by
  simp only [isValidSplit, Bool.and_eq_true, beq_iff_eq,
    decide_eq_true_eq] at h
  obtain ⟨⟨⟨-, -⟩, hnd⟩, hcov⟩ := h
  have hm := hcov m
  rw [List.mem_append] at hm
  rw [List.nodup_append] at hnd
  obtain ⟨-, -, hdisj⟩ := hnd
  by_cases hd1 : m ∈ day1
  · exact Or.inl ⟨hd1, fun hd2 => hdisj hd1 hd2⟩
  · exact Or.inr ⟨hd1, hm.resolve_left hd1⟩

theorem createCycle_eq (cfg : GenConfig) {tms : TrainingMaxSet}
    (h : ∀ m : Movement, 0 < tms.get m) {day1 day2 : List Movement}
    (hsplit : isValidSplit day1 day2 = true) (startDate cycleNumber : ℕ) :
    createCycle cfg tms day1 day2 startDate cycleNumber =
      .ok ⟨cycleNumber, startDate, tms, true,
        [dayPlan cfg tms 1 1 day1, dayPlan cfg tms 1 2 day2,
         dayPlan cfg tms 2 1 day1, dayPlan cfg tms 2 2 day2,
         dayPlan cfg tms 3 1 day1, dayPlan cfg tms 3 2 day2,
         dayPlan cfg tms 4 1 day1, dayPlan cfg tms 4 2 day2],
        (List.range 4).map fun i =>
          (i + 1, startDate + i * 7, startDate + i * 7 + 6)⟩ := by
  have h1 : (1 : ℕ) ∈ [1, 2, 3, 4] := by decide
  have h2 : (2 : ℕ) ∈ [1, 2, 3, 4] := by decide
  have h3 : (3 : ℕ) ∈ [1, 2, 3, 4] := by decide
  have h4 : (4 : ℕ) ∈ [1, 2, 3, 4] := by decide
  simp only [createCycle, hsplit, Bool.not_true, Bool.false_eq_true,
    if_false, generate_eq cfg h h1, generate_eq cfg h h2,
    generate_eq cfg h h3, generate_eq cfg h h4, exOkMap, exOkBind, exPure,
    dayPlan]

/-- Claim C6 counterexample: with the default configuration and the
upper/lower split, createCycle succeeds and squat appears in 4 of the 8
generated workouts (once per week across 4 weeks), not in 2 of them as
the claim states. -/
theorem C6_counterexample :
    ∃ cyc, createCycle demoGenConfig demoTms
        [.squat, .overhead_press] [.bench, .deadlift] 0 1 = .ok cyc
      ∧ (cyc.workouts.filter fun w =>
          decide (Movement.squat ∈ w.movements)).length = 4
      ∧ (cyc.workouts.filter fun w =>
          decide (Movement.squat ∈ w.movements)).length ≠ 2 := by
  have hpos : ∀ m : Movement, 0 < demoTms.get m := by
    intro m
    cases m <;> norm_num [demoTms, TrainingMaxSet.get]
  have hsplit :
      isValidSplit [.squat, .overhead_press] [.bench, .deadlift] = true := by
    decide
  refine ⟨_, createCycle_eq demoGenConfig hpos hsplit 0 1, ?_, ?_⟩ <;>
    simp [dayPlan, List.filter]

/-- Claim C6 (amended): for every complete positive TrainingMaxSet and
every valid 2-movement by 2-movement split, createCycle produces exactly
8 workouts (weeks 1 to 4, days 1 and 2), each with status not-started,
and each of the 4 movements appears in exactly 4 of the 8 workouts, once
per week, so the full movement set is covered every week. -/
theorem C6_cycle_shape :
    ∀ (cfg : GenConfig) (tms : TrainingMaxSet) (day1 day2 : List Movement)
      (startDate cycleNumber : ℕ) (cyc : CyclePlan),
      (∀ m : Movement, 0 < tms.get m) →
      isValidSplit day1 day2 = true →
      createCycle cfg tms day1 day2 startDate cycleNumber = .ok cyc →
        cyc.workouts.length = 8
        ∧ (∀ w ∈ cyc.workouts, w.status = .notStarted)
        ∧ (∀ m : Movement,
            (cyc.workouts.filter fun w =>
              decide (m ∈ w.movements)).length = 4)
        ∧ (∀ (m : Movement) (k : ℕ), k ∈ [1, 2, 3, 4] →
            (cyc.workouts.filter fun w =>
              decide (w.week = k) && decide (m ∈ w.movements)).length
              = 1) := by
  intro cfg tms day1 day2 startDate cycleNumber cyc hpos hsplit hcc
  rw [createCycle_eq cfg hpos hsplit startDate cycleNumber] at hcc
  injection hcc with hcc
  subst hcc
  refine ⟨rfl, ?_, ?_, ?_⟩
  · intro w hw
    fin_cases hw <;> rfl
  · intro m
    rcases validSplit_mem hsplit m with ⟨hm1, hm2⟩ | ⟨hm1, hm2⟩ <;>
      simp [dayPlan, List.filter, hm1, hm2]
  · intro m k hk
    rcases validSplit_mem hsplit m with ⟨hm1, hm2⟩ | ⟨hm1, hm2⟩ <;>
      fin_cases hk <;> simp [dayPlan, List.filter, hm1, hm2]

theorem C6_cycle_shape_witness :
    ∃ cyc, createCycle demoGenConfig demoTms
        [.squat, .overhead_press] [.bench, .deadlift] 0 1 = .ok cyc
      ∧ cyc.workouts.length = 8
      ∧ (∀ w ∈ cyc.workouts, w.status = .notStarted)
      ∧ (∀ m : Movement,
          (cyc.workouts.filter fun w =>
            decide (m ∈ w.movements)).length = 4) := by
  have hpos : ∀ m : Movement, 0 < demoTms.get m := by
    intro m
    cases m <;> norm_num [demoTms, TrainingMaxSet.get]
  have hsplit :
      isValidSplit [.squat, .overhead_press] [.bench, .deadlift] = true := by
    decide
  have hcc := createCycle_eq demoGenConfig hpos hsplit 0 1
  obtain ⟨h8, hns, hcount, -⟩ :=
    C6_cycle_shape demoGenConfig demoTms _ _ 0 1 _ hpos hsplit hcc
  exact ⟨_, hcc, h8, hns, hcount⟩

/-- Claim C7: for every movement and every workout generated for weeks 1
to 3, exactly one set is flagged AMRAP, it is a working set and it is the
last set of the ordered set list; for week 4 no generated SetPrescription
carries the AMRAP flag. -/
theorem C7_amrap_placement :
    ∀ (cfg : GenConfig) (tm : ℚ) (week : ℕ) (sets : List SetPrescription),
      0 < tm →
      generateMovement cfg tm week = .ok sets →
        ((week = 1 ∨ week = 2 ∨ week = 3) →
          ((sets.filter fun s =>
              decide (s.targetReps = .amrap)).length = 1
            ∧ ∃ lastSet, sets.getLast? = some lastSet
                ∧ lastSet.targetReps = .amrap
                ∧ lastSet.kind = .working))
        ∧ (week = 4 →
            (sets.filter fun s =>
              decide (s.targetReps = .amrap)).length = 0) := by
  intro cfg tm week sets htm hgen
  constructor
  · rintro (rfl | rfl | rfl) <;>
    · rw [generateMovement_eq cfg htm (by decide)] at hgen
      injection hgen with hgen
      subst hgen
      rcases hic : cfg.includeWarmups with _ | _ <;>
        simp [hic, warmupTemplates, workingTemplates, prescribe,
          List.filter]
  · rintro rfl
    rw [generateMovement_eq cfg htm (by decide)] at hgen
    injection hgen with hgen
    subst hgen
    rcases hic : cfg.includeWarmups with _ | _ <;>
      simp [hic, warmupTemplates, workingTemplates, prescribe,
        List.filter]

theorem C7_amrap_placement_witness :
    ∃ sets, generateMovement demoGenConfig 300 1 = .ok sets
      ∧ (sets.filter fun s => decide (s.targetReps = .amrap)).length = 1 := by
  have hgen := generateMovement_eq demoGenConfig
    (show (0 : ℚ) < 300 by norm_num)
    (show (1 : ℕ) ∈ [1, 2, 3, 4] by decide)
  obtain ⟨hmain, -⟩ :=
    C7_amrap_placement demoGenConfig 300 1 _ (by norm_num) hgen
  obtain ⟨hcount, -⟩ := hmain (Or.inl rfl)
  exact ⟨_, hgen, hcount⟩

/-- Claim C8: roundToLoadable fails with InvalidWeight for every zero or
negative input and otherwise deterministically returns the multiple of
the configured increment nearest to the raw weight (distance at most half
the increment, so it neither truncates nor ceils); consequently every
computedWeight produced by the generator for a positive training max is
an exact multiple of the configured increment. -/
theorem C8_rounding :
    (∀ raw inc : ℚ, raw ≤ 0 →
        roundToLoadable raw inc = .error .invalidWeight)
  ∧ (∀ raw inc : ℚ, 0 < raw → 0 < inc →
        roundToLoadable raw inc = .ok (nearestMultiple inc raw)
          ∧ (∃ k : ℤ, nearestMultiple inc raw = inc * k)
          ∧ |nearestMultiple inc raw - raw| ≤ inc / 2)
  ∧ (∀ (cfg : GenConfig) (tm : ℚ) (week : ℕ)
        (sets : List SetPrescription),
        0 < tm →
        generateMovement cfg tm week = .ok sets →
        ∀ s ∈ sets, ∃ k : ℤ, s.computedWeight = cfg.increment * k) := by
  refine ⟨?_, ?_, ?_⟩
  · intro raw inc h
    rw [roundToLoadable, if_pos h]
  · intro raw inc hraw hinc
    refine ⟨roundToLoadable_of_pos hraw, ⟨round (raw / inc), rfl⟩, ?_⟩
    have h1 : |raw / inc - (round (raw / inc) : ℚ)| ≤ 1 / 2 :=
      abs_sub_round (raw / inc)
    have hne : (inc : ℚ) ≠ 0 := ne_of_gt hinc
    calc |nearestMultiple inc raw - raw|
        = |inc * ((round (raw / inc) : ℚ) - raw / inc)| := by
          rw [nearestMultiple]
          congr 1
          field_simp
          ring
      _ = inc * |(round (raw / inc) : ℚ) - raw / inc| := by
          rw [abs_mul, abs_of_pos hinc]
      _ ≤ inc * (1 / 2) := by
          apply mul_le_mul_of_nonneg_left _ hinc.le
          rw [abs_sub_comm]
          exact h1
      _ = inc / 2 := by ring
  · intro cfg tm week sets htm hgen
    by_cases hw : week ∈ [1, 2, 3, 4]
    · rw [generateMovement_eq cfg htm hw] at hgen
      injection hgen with hgen
      subst hgen
      intro s hs
      rw [List.mem_map] at hs
      obtain ⟨t, -, rfl⟩ := hs
      exact ⟨round (tm * t.percentage / cfg.increment), rfl⟩
    · rw [generateMovement, schedule_invalid cfg hw] at hgen
      have himp : (Except.error SpecError.invalidWeek
          : Except SpecError (List SetPrescription)) = .ok sets := hgen
      exact Except.noConfusion himp

theorem C8_rounding_witness :
    roundToLoadable (-3) 5 = .error .invalidWeight
    ∧ roundToLoadable 163 5 = .ok (nearestMultiple 5 163)
    ∧ (∃ k : ℤ, nearestMultiple 5 163 = 5 * k)
    ∧ |nearestMultiple 5 163 - 163| ≤ 5 / 2 := by
  have h1 := C8_rounding.1 (-3) 5 (by norm_num)
  have h2 := C8_rounding.2.1 163 5 (by norm_num) (by norm_num)
  exact ⟨h1, h2.1, h2.2.1, h2.2.2⟩

theorem find?_pairwise_min {α : Type} {r : α → α → Prop} {p : α → Bool}
    {l : List α} {a : α}
    (hs : List.Pairwise r l) (h : List.find? p l = some a) :
    ∀ x ∈ l, p x = true → r a x ∨ a = x := by
  induction l with
  | nil => cases h
  | cons b bs ih =>
    rcases List.pairwise_cons.mp hs with ⟨hb, hbs⟩
    rcases hp : p b with _ | _
    · rw [List.find?_cons, hp] at h
      intro x hx hpx
      rcases List.mem_cons.mp hx with rfl | hx2
      · rw [hpx] at hp
        cases hp
      · exact ih hbs h x hx2 hpx
    · rw [List.find?_cons, hp] at h
      injection h with h
      subst h
      intro x hx _
      rcases List.mem_cons.mp hx with rfl | hx2
      · exact Or.inr rfl
      · exact Or.inl (hb x hx2)

/-- Claim C9 counterexample: in a cycle whose workouts carry no ids, the
start button condition holds for both of two not-started workouts at
once, including the one in the later week, because the source compares
the two possibly-undefined ids with strict equality and undefined equals
undefined; so the action is not offered only for the single earliest
not-started workout. -/
theorem C9_counterexample :
    shouldShowStartButton idlessWorkoutB idlessCycle = true
    ∧ shouldShowStartButton idlessWorkoutA idlessCycle = true
    ∧ idlessWorkoutA.week < idlessWorkoutB.week
    ∧ getWorkoutStatus idlessWorkoutA = "not-started"
    ∧ getWorkoutStatus idlessWorkoutB = "not-started" := by
  refine ⟨by decide, by decide, by decide, by decide, by decide⟩

/-- Claim C9 (amended): in a cycle whose workouts all carry distinct
present ids, the start action is offered only when no workout is in
progress and only for the first not-started workout under the ordering by
week then day; in particular at most one workout of the cycle can be
offered the action at a time. -/
theorem C9_start_button :
    ∀ (cycle : CycleData) (ws : List WorkoutData) (workout : WorkoutData),
      cycle.workouts = some ws →
      (∀ w ∈ ws, w.id.isSome = true) →
      (∀ w ∈ ws, ∀ w' ∈ ws, w.id = w'.id → w = w') →
      workout ∈ ws →
      shouldShowStartButton workout cycle = true →
        hasInProgressWorkout cycle = false
        ∧ getWorkoutStatus workout = "not-started"
        ∧ getFirstNotStartedWorkout cycle = some workout
        ∧ (∀ w ∈ ws, getWorkoutStatus w = "not-started" →
            workoutLE workout w)
        ∧ (∀ w ∈ ws, shouldShowStartButton w cycle = true →
            w = workout) := by
  intro cycle ws workout hws hid hinj hmem hbtn
  rw [shouldShowStartButton, Bool.and_eq_true, Bool.and_eq_true] at hbtn
  obtain ⟨⟨hst, hfid⟩, hnip⟩ := hbtn
  rw [beq_iff_eq] at hst
  have hnip' : hasInProgressWorkout cycle = false := by
    rcases hh : hasInProgressWorkout cycle with _ | _
    · rfl
    · rw [hh] at hnip
      cases hnip
  have hfirst : getFirstNotStartedWorkout cycle =
      (List.insertionSort workoutLE ws).find? fun w =>
        getWorkoutStatus w == "not-started" := by
    rw [getFirstNotStartedWorkout, hws]
  rcases hf : (List.insertionSort workoutLE ws).find?
      (fun w => getWorkoutStatus w == "not-started") with _ | fw
  · rw [hfirst, hf] at hfid
    have hidn : workout.id = none := by
      have := beq_iff_eq.mp hfid
      simpa [Option.bind] using this.symm
    have hsome := hid workout hmem
    rw [hidn] at hsome
    cases hsome
  · have hfw_mem : fw ∈ ws := by
      have hm := List.mem_of_find?_eq_some hf
      exact ((List.perm_insertionSort workoutLE ws).mem_iff).mp hm
    have hfid' : fw.id = workout.id := by
      rw [hfirst, hf] at hfid
      have := beq_iff_eq.mp hfid
      simpa [Option.bind] using this
    have hfweq : fw = workout := hinj fw hfw_mem workout hmem hfid'
    refine ⟨hnip', hst, by rw [hfirst, hf, hfweq], ?_, ?_⟩
    · intro w hw hwst
      have hsorted : List.Pairwise workoutLE
          (List.insertionSort workoutLE ws) :=
        List.sorted_insertionSort workoutLE ws
      have hw_sorted : w ∈ List.insertionSort workoutLE ws :=
        ((List.perm_insertionSort workoutLE ws).mem_iff).mpr hw
      have hpw : (fun w => getWorkoutStatus w == "not-started") w = true := by
        simp [hwst]
      rcases find?_pairwise_min hsorted hf w hw_sorted hpw with hle | heq
      · rw [hfweq] at hle
        exact hle
      · subst heq
        rw [hfweq]
        exact Or.inr ⟨rfl, le_rfl⟩
    · intro w hw hbtn2
      rw [shouldShowStartButton, Bool.and_eq_true, Bool.and_eq_true] at hbtn2
      obtain ⟨⟨-, hfid2⟩, -⟩ := hbtn2
      rw [hfirst, hf] at hfid2
      have hfw2 : fw.id = w.id := by
        have := beq_iff_eq.mp hfid2
        simpa [Option.bind] using this
      have hw_eq : w = fw := hinj w hw fw hfw_mem hfw2.symm
      rw [hw_eq, hfweq]

theorem C9_start_button_witness :
    getFirstNotStartedWorkout demoStartCycle = some demoStartWorkout1
    ∧ hasInProgressWorkout demoStartCycle = false := by
  have h := C9_start_button demoStartCycle
    [demoStartWorkout1, demoStartWorkout2] demoStartWorkout1 rfl
    (by decide) (by decide) (by decide) (by decide)
  exact ⟨h.2.2.1, h.1⟩
